import Mathlib

/-!
Verification development for `srap` (the Shell Rc APpender), a small CLI tool
that appends a user-supplied line of text to one or more shell configuration
files.  The definitions below are a shallow embedding of `src/main.rs`:
strings are modelled as `List Char`, the filesystem as a partial map from
paths to file contents, environment variables as `Option` values, and Rust
panics as `Except` errors.
-/

namespace Srap

/-- Strings (Rust `String` / `&str`), modelled at character level. -/
abbrev Str := List Char

deriving instance DecidableEq for Except

/-- The filesystem: a partial map from paths to text contents.
A path `p` names an existing regular file exactly when `fs p = some c`. -/
abbrev Fs := Str → Option Str

/-- Process environment: `SHELL`, `HOME` and `PATH` (the latter already split
into its directory entries, as `env::split_paths` does). `none` models an
unset variable. -/
structure Env where
  shell : Option Str
  home : Option Str
  path : Option (List Str)

/-- The ways the Rust program can panic (terminate abnormally). -/
inductive Panic where
  /-- `args[i]` with `i` out of bounds (slice-indexing panic). -/
  | indexOutOfBounds
  /-- the `panic!("You must provide a filename!")` arm in `parse_args`. -/
  | mustProvideFilename
  /-- `String::insert` called with an index past the end of the string. -/
  | insertNotBoundary
  /-- `panic!("couldn't interpret SHELL: ...")`: `SHELL` env var unset. -/
  | shellUnset
  /-- `panic!("Unsupported shell!: ...")`. -/
  | unsupportedShell
  /-- `panic!("couldnt read file: ...")`. -/
  | readFailed (path : Str)
  /-- `panic!("writing file failed! ...")`. -/
  | writeFailed (path : Str)
deriving Repr, DecidableEq

/-- Observable output events (the `println!` side effects relevant to the
claims), plus explicit read/write markers for the file I/O the engine does. -/
inductive Event where
  | help
  | dryRunNotice
  | notFound (path : Str)
  | readF (path : Str)
  | appending (path : Str)
  | wroteF (path : Str)
  | success
deriving Repr, DecidableEq

/-- The `SrapConfig` struct from `main.rs`. -/
structure SrapConfig where
  all : Bool
  dryrun : Bool
  file : Str
  nocolor : Bool
  verbose : Bool
deriving Repr, DecidableEq

/-- `SrapConfig::new_default`. -/
def SrapConfig.new_default : SrapConfig :=
  { all := false, dryrun := false, file := [], nocolor := false, verbose := false }

/-- Rust `a.starts_with("-")`: the first character is a dash. -/
def startsDash (s : Str) : Bool :=
  match s with
  | '-' :: _ => true
  | _ => false

/-- `needle` is a prefix of `hay` (helper for substring containment). -/
def isPre : Str → Str → Bool
  | [], _ => true
  | _ :: _, [] => false
  | a :: as, b :: bs => a == b && isPre as bs

/-- Rust `hay.contains(needle)`: substring containment. -/
def hasSub (needle : Str) : Str → Bool
  | [] => needle.isEmpty
  | b :: bs => isPre needle (b :: bs) || hasSub needle bs

/-- Rust `iter().position(p)`: index of the first element satisfying `p`. -/
def position {α : Type} (p : α → Bool) : List α → Option Nat
  | [] => none
  | a :: rest => if p a then some 0 else (position p rest).map (· + 1)

/-- Rust `String::insert(i, c)`: panics when `i` lies past the end of the
string, otherwise inserts `c` at position `i`. -/
def rustInsert (s : Str) (i : Nat) (c : Char) : Except Panic Str :=
  if i ≤ s.length then .ok (s.take i ++ c :: s.drop i) else .error .insertNotBoundary

/-- Rust `[..].join(" ")`: join tokens with single spaces. -/
def joinSpace : List Str → Str
  | [] => []
  | [s] => s
  | s :: t :: rest => s ++ ' ' :: joinSpace (t :: rest)

/-- Rust `s.replace("~", home)` for the single-character pattern `"~"`. -/
def replaceTilde (s : Str) (home : Str) : Str :=
  match s with
  | [] => []
  | c :: rest => (if c = '~' then home else [c]) ++ replaceTilde rest home

/-- `parse_args` from `main.rs`: scans the token list for the recognized
flags; on `-f`/`--file` it locates the first token *containing* `"-f"`,
takes the following token as the filename and removes that following token
from the list (indexing out of bounds when nothing follows). -/
def parse_args (args : List Str) : Except Panic (SrapConfig × List Str) :=
  let all := decide ("-a".data ∈ args ∨ "--all".data ∈ args)
  let dryrun := decide ("-d".data ∈ args ∨ "--dry-run".data ∈ args)
  let verbose := decide ("-v".data ∈ args ∨ "--verbose".data ∈ args)
  if "-f".data ∈ args ∨ "--file".data ∈ args then
    match position (fun a => hasSub "-f".data a) args with
    | none => .error .mustProvideFilename
    | some idx =>
      if h : idx + 1 < args.length then
        let filename := args.get ⟨idx + 1, h⟩
        let args' := args.eraseIdx (idx + 1)
        let nocolor := decide ("-n".data ∈ args' ∨ "--no-color".data ∈ args')
        .ok (⟨all, dryrun, filename, nocolor, verbose⟩, args')
      else .error .indexOutOfBounds
  else
    let nocolor := decide ("-n".data ∈ args ∨ "--no-color".data ∈ args)
    .ok (⟨all, dryrun, [], nocolor, verbose⟩, args)

/-- The token sublist the program treats as the line to append: everything
from the first token that does not start with a dash to the end. -/
def lineTokens (args : List Str) : List Str :=
  match position (fun a => !(startsDash a)) args with
  | none => []
  | some i => args.drop i

/-- The alias-quoting post-processing step of `main.rs` (lines 149–153):
if the assembled line contains `"alias"` and no double quote, insert a
double quote right after the first `=` (falling back to the fixed offset
`1992 + 1` when there is no `=`, which panics on shorter lines) and append a
closing double quote at the end. -/
def postprocessAlias (line : Str) : Except Panic Str :=
  if hasSub "alias".data line && !(hasSub "\"".data line) then
    let alias_start := (match position (fun c => c == '=') line with
                        | some val => val
                        | none => 1992) + 1
    match rustInsert line alias_start '\"' with
    | .error p => .error p
    | .ok s1 =>
      match rustInsert s1 s1.length '\"' with
      | .error p => .error p
      | .ok s2 => .ok s2
  else .ok line

/-- `find_it` from `main.rs`: resolve an executable name against the `PATH`
directories, returning the first full path that names an existing file, and
`""` when `PATH` is unset or nothing is found. -/
def find_it (path : Option (List Str)) (fs : Fs) (exec_name : Str) : Str :=
  match path with
  | none => []
  | some dirs =>
    match dirs.find? (fun dir => (fs (dir ++ '/' :: exec_name)).isSome) with
    | none => []
    | some dir => dir ++ '/' :: exec_name

/-- The single-target config-file choice of `main.rs` (lines 224–244): an
explicit `config.file` wins; otherwise `SHELL` is compared for *exact string
equality* against the `PATH`-resolved full path of each known shell, in the
order zsh, bash, nsh, ksh, fish, ion, tcsh; no match is a fatal panic. -/
def resolveConfigPath (config : SrapConfig) (shell : Str) (path : Option (List Str))
    (fs : Fs) : Except Panic Str :=
  if config.file ≠ [] then .ok config.file
  else if shell = find_it path fs "zsh".data then .ok "~/.zshrc".data
  else if shell = find_it path fs "bash".data then .ok "~/.bashrc".data
  else if shell = find_it path fs "nsh".data then .ok "~/.nshrc".data
  else if shell = find_it path fs "ksh".data then .ok "~/.kshrc".data
  else if shell = find_it path fs "fish".data then .ok "~/.config/fish/config.fish".data
  else if shell = find_it path fs "ion".data then .ok ".config/ion/initrc".data
  else if shell = find_it path fs "tcsh".data then .ok "~/.cshrc".data
  else .error .unsupportedShell

/-- Modelled from the spec's words (§4.2/§9, not from the code): shell
matching by *substring containment* of the shell key in the `SHELL` value,
used to compare the specified behaviour with `resolveConfigPath`. -/
def specSubstringResolve (shell : Str) : Option Str :=
  if hasSub "bash".data shell then some "~/.bashrc".data
  else if hasSub "zsh".data shell then some "~/.zshrc".data
  else if hasSub "nsh".data shell then some "~/.nshrc".data
  else if hasSub "ksh".data shell then some "~/.kshrc".data
  else if hasSub "fish".data shell then some "~/.config/fish/config.fish".data
  else if hasSub "ion".data shell then some ".config/ion/initrc".data
  else if hasSub "tcsh".data shell then some "~/.cshrc".data
  else none

/-- Point update of the filesystem (the effect of `fs::write`). -/
def fsUpdate (fs : Fs) (p : Str) (c : Str) : Fs :=
  fun q => if q = p then some c else fs q

/-- The single-target append engine (lines 248–266 of `main.rs`): read the
file (fatal if missing), concatenate the already-newline-prefixed line, and
overwrite the file unless `dryrun`. -/
def appendEngineSingle (dryrun : Bool) (line_to_append : Str) (cfp : Str) (fs : Fs) :
    Except Panic (Fs × List Event) :=
  match fs cfp with
  | none => .error (.readFailed cfp)
  | some existing =>
    .ok (if dryrun then fs else fsUpdate fs cfp (existing ++ line_to_append),
         [Event.readF cfp, Event.appending cfp] ++
           (if dryrun then [] else [Event.wroteF cfp]))

/-- The apply-to-all loop body (lines 172–207 of `main.rs`): for each
candidate path, expand `~`, skip (with a "not found" notice) when the file
does not exist, otherwise read, report, and overwrite unless `dryrun`. -/
def runAll (dryrun : Bool) (line home : Str) : List Str → Fs → Fs × List Event
  | [], fs => (fs, [])
  | cf0 :: rest, fs =>
    let cf := replaceTilde cf0 home
    match fs cf with
    | none =>
      let r := runAll dryrun line home rest fs
      (r.1, Event.notFound cf :: r.2)
    | some existing =>
      let fs' := if dryrun then fs else fsUpdate fs cf (existing ++ line)
      let r := runAll dryrun line home rest fs'
      (r.1, Event.readF cf :: Event.appending cf ::
            ((if dryrun then [] else [Event.wroteF cf]) ++ r.2))

/-- The `config.all` branch of `main`: fixed candidates bash, zsh, nsh, ksh
(in this order), then the explicit file when non-empty, `HOME` substituted
with `""` when unset. -/
def runAllMode (config : SrapConfig) (line_to_append : Str) (env : Env) (fs : Fs) :
    Fs × List Event :=
  runAll config.dryrun line_to_append
    (match env.home with | some v => v | none => [])
    (["~/.bashrc".data, "~/.zshrc".data, "~/.nshrc".data, "~/.kshrc".data] ++
      (if config.file = [] then [] else [config.file]))
    fs

/-- The single-target branch of `main` (lines 208–266): `SHELL` is read first
(fatal when unset, before the explicit-file check), then `HOME`, then the
config path is resolved and `~`-expanded and the append engine runs. -/
def runSingleMode (config : SrapConfig) (line_to_append : Str) (env : Env) (fs : Fs) :
    Except Panic (Fs × List Event) :=
  match env.shell with
  | none => .error .shellUnset
  | some shell =>
    match resolveConfigPath config shell env.path fs with
    | .error p => .error p
    | .ok cfp0 =>
      appendEngineSingle config.dryrun line_to_append
        (replaceTilde cfp0 (match env.home with | some v => v | none => [])) fs

/-- Result of a whole program run: normal/abnormal termination, the final
filesystem, and the emitted events. -/
structure RunResult where
  result : Except Panic Unit
  fs : Fs
  events : List Event

/-- `main` from `main.rs`, as a function of the argument tokens (program
name already removed), the environment and the filesystem. -/
def srapRun (args0 : List Str) (env : Env) (fs : Fs) : RunResult :=
  if args0 = [] ∨ "-h".data ∈ args0 ∨ "--help".data ∈ args0 then
    ⟨.ok (), fs, [Event.help]⟩
  else
    match parse_args args0 with
    | .error p => ⟨.error p, fs, []⟩
    | .ok (config, args) =>
      match position (fun a => !(startsDash a)) args with
      | none =>
        ⟨.ok (), fs, (if config.dryrun then [Event.dryRunNotice] else []) ++ [Event.help]⟩
      | some line =>
        match postprocessAlias ('\n' :: joinSpace (args.drop line)) with
        | .error p => ⟨.error p, fs, if config.dryrun then [Event.dryRunNotice] else []⟩
        | .ok line_to_append =>
          if config.all then
            ⟨.ok (), (runAllMode config line_to_append env fs).1,
             (if config.dryrun then [Event.dryRunNotice] else []) ++
               (runAllMode config line_to_append env fs).2 ++ [Event.success]⟩
          else
            match runSingleMode config line_to_append env fs with
            | .error p => ⟨.error p, fs, if config.dryrun then [Event.dryRunNotice] else []⟩
            | .ok (fs', evs) =>
              ⟨.ok (), fs', (if config.dryrun then [Event.dryRunNotice] else []) ++
                evs ++ [Event.success]⟩

/-- An environment with no variables set (used for concrete runs). -/
def env0 : Env := ⟨none, none, none⟩

/-- An environment with `HOME=/h` and `SHELL`/`PATH` unset. -/
def envHome : Env := ⟨none, some "/h".data, none⟩

/-- The empty filesystem. -/
def fs0 : Fs := fun _ => none

/-- A filesystem holding only `/bin/zsh` (an empty executable file). -/
def fsBinZsh : Fs := fun p => if p = "/bin/zsh".data then some [] else none

/-- A filesystem holding only `/usr/bin/zsh`. -/
def fsUsrBinZsh : Fs := fun p => if p = "/usr/bin/zsh".data then some [] else none

/-- A filesystem holding only `/h/.bashrc` with content `x`. -/
def fsBashOnly : Fs := fun p => if p = "/h/.bashrc".data then some "x".data else none

/-- A filesystem holding only `/h/.bashrc` with content `export X=1`. -/
def fsExport : Fs := fun p => if p = "/h/.bashrc".data then some "export X=1".data else none

/-! ## Helper lemmas -/

theorem position_eq_none {α : Type} (p : α → Bool) (l : List α)
    (h : ∀ a ∈ l, p a = false) : position p l = none := by
  induction l with
  | nil => rfl
  | cons a rest ih =>
    have ha : p a = false := h a (List.mem_cons_self a rest)
    simp [position, ha, ih (fun x hx => h x (List.mem_cons_of_mem a hx))]

theorem position_isSome {α : Type} (p : α → Bool) (l : List α) (a : α)
    (ha : a ∈ l) (hp : p a = true) : ∃ i, position p l = some i := by
  induction l with
  | nil => cases ha
  | cons b rest ih =>
    by_cases hb : p b = true
    · exact ⟨0, by simp [position, hb]⟩
    · rcases List.mem_cons.mp ha with rfl | hmem
      · exact absurd hp hb
      · rcases ih hmem with ⟨i, hi⟩
        exact ⟨i + 1, by simp [position, hb, hi]⟩

theorem position_append_first {u v : Str} (c : Char) (h : c ∉ u) :
    position (fun x => x == c) (u ++ c :: v) = some u.length := by
  induction u with
  | nil => simp [position]
  | cons a rest ih =>
    have ha : (a == c) = false := by
      simp only [beq_eq_false_iff_ne]
      intro hac
      exact h (by simp [hac])
    simp [position, ha, ih (fun hc => h (List.mem_cons_of_mem a hc))]

theorem take_append_succ {α : Type} (u v : List α) (c : α) :
    (u ++ c :: v).take (u.length + 1) = u ++ [c] := by
  induction u with
  | nil => simp
  | cons a rest ih => simp [List.take_succ_cons, ih]

theorem drop_append_succ {α : Type} (u v : List α) (c : α) :
    (u ++ c :: v).drop (u.length + 1) = v := by
  induction u with
  | nil => simp
  | cons a rest ih => simp [List.drop_succ_cons, ih]

theorem replaceTilde_no_tilde (home : Str) (s : Str) (h : '~' ∉ s) :
    replaceTilde s home = s := by
  induction s with
  | nil => rfl
  | cons c rest ih =>
    have hc : ¬(c = '~') := fun hc => h (by simp [hc])
    simp [replaceTilde, hc, ih (fun hr => h (List.mem_cons_of_mem c hr))]

theorem replaceTilde_tilde (home rest : Str) (h : '~' ∉ rest) :
    replaceTilde ('~' :: rest) home = home ++ rest := by
  simp [replaceTilde, replaceTilde_no_tilde home rest h]

theorem fsUpdate_same (fs : Fs) (p c : Str) : fsUpdate fs p c p = some c := by
  simp [fsUpdate]

theorem fsUpdate_ne (fs : Fs) (p c q : Str) (h : q ≠ p) : fsUpdate fs p c q = fs q := by
  simp [fsUpdate, h]

theorem append_ne_of_ne {α : Type} (u : List α) {a b : List α} (h : a ≠ b) :
    u ++ a ≠ u ++ b :=
  fun hEq => h (List.append_cancel_left hEq)

theorem runAll_nil (dryrun : Bool) (line home : Str) (fs : Fs) :
    runAll dryrun line home [] fs = (fs, []) := rfl

theorem runAll_cons_none (dryrun : Bool) (line home cf0 : Str) (rest : List Str) (fs : Fs)
    (h : fs (replaceTilde cf0 home) = none) :
    runAll dryrun line home (cf0 :: rest) fs =
      ((runAll dryrun line home rest fs).1,
       Event.notFound (replaceTilde cf0 home) :: (runAll dryrun line home rest fs).2) := by
  simp only [runAll, h]

theorem runAll_cons_some (dryrun : Bool) (line home cf0 : Str) (rest : List Str) (fs : Fs)
    (existing : Str) (h : fs (replaceTilde cf0 home) = some existing) :
    runAll dryrun line home (cf0 :: rest) fs =
      ((runAll dryrun line home rest
          (if dryrun then fs
           else fsUpdate fs (replaceTilde cf0 home) (existing ++ line))).1,
       Event.readF (replaceTilde cf0 home) :: Event.appending (replaceTilde cf0 home) ::
         ((if dryrun then [] else [Event.wroteF (replaceTilde cf0 home)]) ++
          (runAll dryrun line home rest
            (if dryrun then fs
             else fsUpdate fs (replaceTilde cf0 home) (existing ++ line))).2)) := by
  simp only [runAll, h]

theorem runAll_dryrun_fs (line home : Str) (files : List Str) (fs : Fs) :
    (runAll true line home files fs).1 = fs := by
  induction files generalizing fs with
  | nil => rfl
  | cons cf0 rest ih =>
    cases h : fs (replaceTilde cf0 home) with
    | none => rw [runAll_cons_none true line home cf0 rest fs h]; exact ih fs
    | some existing =>
      rw [runAll_cons_some true line home cf0 rest fs existing h]
      simpa using ih fs

theorem parse_args_dryrun (args : List Str) (config : SrapConfig) (args' : List Str)
    (h : parse_args args = .ok (config, args')) (hd : "-d".data ∈ args) :
    config.dryrun = true := by
  simp only [parse_args] at h
  split at h
  · split at h
    · cases h
    · split at h
      · simp only [Except.ok.injEq, Prod.mk.injEq] at h
        rw [← h.1]
        simp [hd]
      · cases h
  · simp only [Except.ok.injEq, Prod.mk.injEq] at h
    rw [← h.1]
    simp [hd]

theorem runSingleMode_dryrun_fs (config : SrapConfig) (l : Str) (env : Env) (fs fs' : Fs)
    (evs : List Event) (hdr : config.dryrun = true)
    (h : runSingleMode config l env fs = .ok (fs', evs)) : fs' = fs := by
  simp only [runSingleMode, appendEngineSingle, hdr] at h
  split at h
  · cases h
  · split at h
    · cases h
    · split at h
      · cases h
      · simp only [if_true, Except.ok.injEq, Prod.mk.injEq] at h
        exact h.1.symm

theorem runSingleMode_shell_none (config : SrapConfig) (l : Str) (env : Env) (fs : Fs)
    (h : env.shell = none) : runSingleMode config l env fs = .error .shellUnset := by
  unfold runSingleMode
  rw [h]

theorem postprocess_no_eq_panics (line : Str) (hal : hasSub "alias".data line = true)
    (hq : hasSub "\"".data line = false) (he : '=' ∉ line) (hlen : line.length < 1993) :
    postprocessAlias line = .error .insertNotBoundary := by
  unfold postprocessAlias
  rw [if_pos (by rw [hal, hq]; rfl)]
  have hpos : position (fun c => c == '=') line = none :=
    position_eq_none _ _ (fun c hc => by
      have hne : ¬(c = '=') := fun hcc => he (hcc ▸ hc)
      simp [beq_eq_false_iff_ne, hne])
  simp only [hpos]
  have hins : rustInsert line (1992 + 1) '\"' = .error .insertNotBoundary := by
    unfold rustInsert
    rw [if_neg (by omega)]
  simp only [hins]

theorem runAll_cons_some_false (line home cf0 : Str) (rest : List Str) (fs : Fs)
    (existing : Str) (h : fs (replaceTilde cf0 home) = some existing) :
    runAll false line home (cf0 :: rest) fs =
      ((runAll false line home rest
          (fsUpdate fs (replaceTilde cf0 home) (existing ++ line))).1,
       Event.readF (replaceTilde cf0 home) :: Event.appending (replaceTilde cf0 home) ::
         Event.wroteF (replaceTilde cf0 home) ::
         (runAll false line home rest
           (fsUpdate fs (replaceTilde cf0 home) (existing ++ line))).2) := by
  rw [runAll_cons_some false line home cf0 rest fs existing h]
  rfl

theorem srapRun_dryrun_fs (args : List Str) (env : Env) (fs : Fs)
    (hd : "-d".data ∈ args) : (srapRun args env fs).fs = fs := by
  by_cases hhelp : args = [] ∨ "-h".data ∈ args ∨ "--help".data ∈ args
  · simp [srapRun, hhelp]
  · cases hp : parse_args args with
    | error p => simp [srapRun, hhelp, hp]
    | ok out =>
      obtain ⟨config, args'⟩ := out
      have hdr : config.dryrun = true := parse_args_dryrun args config args' hp hd
      cases hl : position (fun a => !(startsDash a)) args' with
      | none => simp [srapRun, hhelp, hp, hl]
      | some i =>
        cases hpost : postprocessAlias ('\n' :: joinSpace (args'.drop i)) with
        | error p => simp [srapRun, hhelp, hp, hl, hpost]
        | ok l =>
          cases ha : config.all with
          | true =>
            have hfs : (runAllMode config l env fs).1 = fs := by
              unfold runAllMode
              rw [hdr]
              exact runAll_dryrun_fs _ _ _ fs
            simp [srapRun, hhelp, hp, hl, hpost, ha, hfs]
          | false =>
            cases hs : runSingleMode config l env fs with
            | error p => simp [srapRun, hhelp, hp, hl, hpost, ha, hs]
            | ok out2 =>
              obtain ⟨fs', evs⟩ := out2
              have hfs : fs' = fs := runSingleMode_dryrun_fs config l env fs fs' evs hdr hs
              simp [srapRun, hhelp, hp, hl, hpost, ha, hs, hfs]

/-! ## Claim theorems -/

/-- C3: for the input token list `["-f", "myfile.txt", "echo", "hi"]`,
argument parsing succeeds, the config's explicit-file field equals
`"myfile.txt"`, and the residual line tokens (the tokens the program uses to
form the line to append) are exactly `["echo", "hi"]` — neither the `-f`
flag token nor its path argument appears among them — so the assembled line
is `"echo hi"`. -/
theorem parse_file_flag_example :
    ∃ out, parse_args ["-f".data, "myfile.txt".data, "echo".data, "hi".data] = .ok out
      ∧ out.1.file = "myfile.txt".data
      ∧ lineTokens out.2 = ["echo".data, "hi".data]
      ∧ joinSpace (lineTokens out.2) = "echo hi".data := by
  exact ⟨(⟨false, false, "myfile.txt".data, false, false⟩,
          ["-f".data, "echo".data, "hi".data]), by decide, by decide, by decide, by decide⟩

/-- C8: the error message `"You must provide a filename!"` is unreachable:
`parse_args` can never produce it, because whenever the `-f`/`--file` branch
is entered, some token contains the substring `"-f"`, so the `position`
lookup always succeeds.  When `-f` (or `--file`) is the last token, the
process instead terminates with an index-out-of-bounds panic from
`args[file_arg_index]`. -/
theorem filename_message_unreachable :
    (∀ args : List Str, parse_args args ≠ .error .mustProvideFilename)
    ∧ parse_args ["-f".data] = .error .indexOutOfBounds
    ∧ parse_args ["--file".data] = .error .indexOutOfBounds := by
  refine ⟨?_, by decide, by decide⟩
  intro args h
  simp only [parse_args] at h
  split at h
  · rename_i hin
    cases hpos : position (fun a => hasSub "-f".data a) args with
    | none =>
      rcases hin with h1 | h1
      · rcases position_isSome (fun a => hasSub "-f".data a) args _ h1 (by decide) with ⟨i, hi⟩
        rw [hpos] at hi
        cases hi
      · rcases position_isSome (fun a => hasSub "-f".data a) args _ h1 (by decide) with ⟨i, hi⟩
        rw [hpos] at hi
        cases hi
    | some idx =>
      simp only [hpos] at h
      split at h
      · exact Except.noConfusion h
      · exact absurd (Except.error.inj h) (by decide)
  · exact Except.noConfusion h

/-- C8 witness: a concrete application — parsing `srap -f -d` does not
produce the "must provide a filename" error. -/
theorem filename_message_unreachable_witness :
    parse_args ["-f".data, "-d".data] ≠ .error .mustProvideFilename :=
  filename_message_unreachable.1 ["-f".data, "-d".data]

/-- C6 counterexample: for the all-flags token list `["-f"]` the program
does not print help; it terminates with an index-out-of-bounds panic. -/
theorem only_flags_dash_f_panics_cex :
    (srapRun ["-f".data] env0 fs0).result = .error .indexOutOfBounds
    ∧ Event.help ∉ (srapRun ["-f".data] env0 fs0).events := by
  decide

/-- C6 (amended): for every token list in which every token begins with a
dash, *provided* that when `-f`/`--file` is present a token follows the
first token containing `"-f"` (otherwise the program panics), the program
prints the help text, terminates normally, and modifies no file. -/
theorem only_flags_prints_help (args : List Str) (env : Env) (fs : Fs)
    (hdash : ∀ a ∈ args, startsDash a = true)
    (hf : ("-f".data ∈ args ∨ "--file".data ∈ args) →
        ∀ i, position (fun a => hasSub "-f".data a) args = some i → i + 1 < args.length) :
    (srapRun args env fs).result = .ok ()
    ∧ (srapRun args env fs).fs = fs
    ∧ Event.help ∈ (srapRun args env fs).events := by
  obtain ⟨config, args', hok, hsub⟩ :
      ∃ config args', parse_args args = .ok (config, args') ∧ ∀ a ∈ args', a ∈ args := by
    by_cases hin : "-f".data ∈ args ∨ "--file".data ∈ args
    · cases hpos : position (fun a => hasSub "-f".data a) args with
      | none =>
        exfalso
        rcases hin with h1 | h1
        · rcases position_isSome (fun a => hasSub "-f".data a) args _ h1 (by decide) with ⟨i, hi⟩
          rw [hpos] at hi
          cases hi
        · rcases position_isSome (fun a => hasSub "-f".data a) args _ h1 (by decide) with ⟨i, hi⟩
          rw [hpos] at hi
          cases hi
      | some idx =>
        have hlt := hf hin idx hpos
        have hok : parse_args args = .ok
            (⟨decide ("-a".data ∈ args ∨ "--all".data ∈ args),
              decide ("-d".data ∈ args ∨ "--dry-run".data ∈ args),
              args.get ⟨idx + 1, hlt⟩,
              decide ("-n".data ∈ args.eraseIdx (idx + 1) ∨
                "--no-color".data ∈ args.eraseIdx (idx + 1)),
              decide ("-v".data ∈ args ∨ "--verbose".data ∈ args)⟩,
             args.eraseIdx (idx + 1)) := by
          simp only [parse_args]
          rw [if_pos hin]
          simp only [hpos]
          rw [dif_pos hlt]
        exact ⟨_, _, hok, fun a ha => List.mem_of_mem_eraseIdx ha⟩
    · have hok : parse_args args = .ok
          (⟨decide ("-a".data ∈ args ∨ "--all".data ∈ args),
            decide ("-d".data ∈ args ∨ "--dry-run".data ∈ args),
            [],
            decide ("-n".data ∈ args ∨ "--no-color".data ∈ args),
            decide ("-v".data ∈ args ∨ "--verbose".data ∈ args)⟩, args) := by
        simp only [parse_args]
        rw [if_neg hin]
      exact ⟨_, _, hok, fun a ha => ha⟩
  have hnone : position (fun a => !(startsDash a)) args' = none :=
    position_eq_none _ _ (fun a ha => by rw [hdash a (hsub a ha)]; rfl)
  by_cases hhelp : args = [] ∨ "-h".data ∈ args ∨ "--help".data ∈ args
  · simp [srapRun, hhelp]
  · simp [srapRun, hhelp, hok, hnone]

/-- C6 witness: at the concrete all-flags input `["-d"]` the program prints
help and leaves the filesystem unchanged. -/
theorem only_flags_prints_help_witness :
    (srapRun ["-d".data] env0 fs0).result = .ok ()
    ∧ (srapRun ["-d".data] env0 fs0).fs = fs0
    ∧ Event.help ∈ (srapRun ["-d".data] env0 fs0).events :=
  only_flags_prints_help ["-d".data] env0 fs0 (by decide)
    (fun h => absurd h (by decide))

/-- C4 counterexample: with `SHELL=/usr/bin/zsh` while `PATH` resolves `zsh`
to `/bin/zsh`, the code's resolver aborts with "Unsupported shell" even
though substring matching (which the claim asserts) selects `~/.zshrc`. -/
theorem shell_match_not_substring_cex :
    resolveConfigPath SrapConfig.new_default "/usr/bin/zsh".data (some ["/bin".data]) fsBinZsh
        = .error .unsupportedShell
    ∧ specSubstringResolve "/usr/bin/zsh".data = some "~/.zshrc".data := by
  decide

/-- C4 (amended): in single-target mode without an explicit file, the shell
match is *exact string equality* between `SHELL` and the `PATH`-resolved
full path of each candidate shell (zsh first): the target is `~/.zshrc`
exactly when `SHELL` equals `find_it "zsh"`'s result, so a full path such as
`/usr/bin/zsh` selects `~/.zshrc` only when `PATH` lookup resolves `zsh` to
exactly that path. -/
theorem shell_match_exact_path_equality (config : SrapConfig) (shell : Str)
    (path : Option (List Str)) (fs : Fs) (hfile : config.file = []) :
    resolveConfigPath config shell path fs = .ok "~/.zshrc".data
      ↔ shell = find_it path fs "zsh".data := by
  unfold resolveConfigPath
  rw [hfile]
  rw [if_neg (fun hcon => hcon rfl)]
  constructor
  · intro h
    by_contra hne
    rw [if_neg hne] at h
    split_ifs at h <;> exact absurd (Except.ok.inj h) (by decide)
  · intro h
    rw [if_pos h]

/-- C4 witness: when `PATH` resolves `zsh` to exactly `/usr/bin/zsh` and
`SHELL=/usr/bin/zsh`, the exact-equality match selects `~/.zshrc`. -/
theorem shell_match_exact_path_equality_witness :
    resolveConfigPath SrapConfig.new_default "/usr/bin/zsh".data
      (some ["/usr/bin".data]) fsUsrBinZsh = .ok "~/.zshrc".data :=
  (shell_match_exact_path_equality SrapConfig.new_default "/usr/bin/zsh".data
      (some ["/usr/bin".data]) fsUsrBinZsh rfl).mpr (by decide)

/-- C2: on an assembled line containing `"alias"`, containing no double
quote, and containing an `=` (written as the split `u ++ '=' :: v` around
the first `=`), the post-processing step inserts a double quote immediately
after that first `=` and appends one trailing double quote; in particular
`"alias ll=ls"` (newline-prefixed) becomes `"\nalias ll=\"ls\""`.  Lines
containing a double quote, or not containing `"alias"`, pass unmodified. -/
theorem alias_quote_insertion :
    (∀ line u v, hasSub "alias".data line = true → hasSub "\"".data line = false →
        line = u ++ '=' :: v → '=' ∉ u →
        postprocessAlias line = .ok (u ++ '=' :: '\"' :: (v ++ ['\"'])))
    ∧ postprocessAlias ('\n' :: "alias ll=ls".data) = .ok "\nalias ll=\"ls\"".data
    ∧ (∀ line, hasSub "\"".data line = true → postprocessAlias line = .ok line)
    ∧ (∀ line, hasSub "alias".data line = false → postprocessAlias line = .ok line) := by
  refine ⟨?_, by decide, ?_, ?_⟩
  · intro line u v hal hq hline hu
    subst hline
    unfold postprocessAlias
    rw [if_pos (by rw [hal, hq]; rfl)]
    simp only [position_append_first '=' hu]
    have h1 : rustInsert (u ++ '=' :: v) (u.length + 1) '\"' =
        .ok ((u ++ ['=']) ++ '\"' :: v) := by
      unfold rustInsert
      rw [if_pos (by simp only [List.length_append, List.length_cons]; omega)]
      rw [take_append_succ, drop_append_succ]
    simp only [h1]
    have h2 : rustInsert ((u ++ ['=']) ++ '\"' :: v) ((u ++ ['=']) ++ '\"' :: v).length '\"' =
        .ok (((u ++ ['=']) ++ '\"' :: v) ++ ['\"']) := by
      unfold rustInsert
      rw [if_pos (le_refl _), List.take_length, List.drop_length]
    simp only [h2]
    simp [List.append_assoc]
  · intro line hq
    unfold postprocessAlias
    rw [if_neg (by rw [hq]; simp)]
  · intro line hal
    unfold postprocessAlias
    rw [if_neg (by rw [hal]; simp)]

/-- C2 witness: the claim's own example, with the first-`=` split made
explicit: `u = "\nalias ll"`, `v = "ls"`. -/
theorem alias_quote_insertion_witness :
    postprocessAlias ('\n' :: "alias ll=ls".data) =
      .ok ("\nalias ll".data ++ '=' :: '\"' :: ("ls".data ++ ['\"'])) :=
  alias_quote_insertion.1 ('\n' :: "alias ll=ls".data) "\nalias ll".data "ls".data
    (by decide) (by decide) (by decide) (by decide)

/-- C9: an assembled line that contains `"alias"`, no double quote, and no
`=` at all, and is shorter than 1993 characters, makes the quote-insertion
step panic: the fallback offset is the fixed `1992 + 1`, past the end of
the string.  Moreover, whenever the program run is pinned to this situation
(parsing succeeded, a line was found, and the assembled line satisfies those
conditions), the process aborts with exactly this panic, the filesystem is
untouched, and no file is read or written. -/
theorem alias_no_eq_panics :
    (∀ line, hasSub "alias".data line = true → hasSub "\"".data line = false →
        '=' ∉ line → line.length < 1993 →
        postprocessAlias line = .error .insertNotBoundary)
    ∧ (∀ args env fs config args' i,
        ¬(args = [] ∨ "-h".data ∈ args ∨ "--help".data ∈ args) →
        parse_args args = .ok (config, args') →
        position (fun a => !(startsDash a)) args' = some i →
        hasSub "alias".data ('\n' :: joinSpace (args'.drop i)) = true →
        hasSub "\"".data ('\n' :: joinSpace (args'.drop i)) = false →
        '=' ∉ ('\n' :: joinSpace (args'.drop i)) →
        ('\n' :: joinSpace (args'.drop i)).length < 1993 →
        (srapRun args env fs).result = .error .insertNotBoundary
        ∧ (srapRun args env fs).fs = fs
        ∧ ∀ p, Event.readF p ∉ (srapRun args env fs).events
             ∧ Event.wroteF p ∉ (srapRun args env fs).events) := by
  refine ⟨fun line hal hq he hlen => postprocess_no_eq_panics line hal hq he hlen, ?_⟩
  intro args env fs config args' i hhelp hparse hpos hal hq he hlen
  have hpp := postprocess_no_eq_panics _ hal hq he hlen
  have e : srapRun args env fs =
      ⟨.error .insertNotBoundary, fs,
       if config.dryrun = true then [Event.dryRunNotice] else []⟩ := by
    unfold srapRun
    rw [if_neg hhelp]
    simp only [hparse, hpos, hpp]
  rw [e]
  exact ⟨rfl, rfl, fun p => by cases hd : config.dryrun <;> simp [hd]⟩

/-- C9 witness: running `srap alias` (assembled line `"\nalias"`, length 6)
panics in the quote-insertion step with the filesystem untouched. -/
theorem alias_no_eq_panics_witness :
    (srapRun ["alias".data] env0 fs0).result = .error .insertNotBoundary
    ∧ (srapRun ["alias".data] env0 fs0).fs = fs0 :=
  ⟨(alias_no_eq_panics.2 ["alias".data] env0 fs0 ⟨false, false, [], false, false⟩
      ["alias".data] 0 (by decide) (by decide) (by decide) (by decide) (by decide)
      (by decide) (by decide)).1,
   (alias_no_eq_panics.2 ["alias".data] env0 fs0 ⟨false, false, [], false, false⟩
      ["alias".data] 0 (by decide) (by decide) (by decide) (by decide) (by decide)
      (by decide) (by decide)).2.1⟩

/-- C7: when `SHELL` is unset, `applyToAll` is false and no `--file` is
given, with a line present, the process aborts (terminates with a panic)
and writes no file: the filesystem is unchanged and no write event occurs. -/
theorem no_shell_aborts (args args' : List Str) (env : Env) (fs : Fs) (config : SrapConfig)
    (hshell : env.shell = none)
    (hhelp : ¬(args = [] ∨ "-h".data ∈ args ∨ "--help".data ∈ args))
    (hparse : parse_args args = .ok (config, args'))
    (hall : config.all = false)
    (hfile : config.file = [])
    (hline : ∃ i, position (fun a => !(startsDash a)) args' = some i) :
    (∃ p, (srapRun args env fs).result = .error p)
    ∧ (srapRun args env fs).fs = fs
    ∧ ∀ q, Event.wroteF q ∉ (srapRun args env fs).events := by
  obtain ⟨i, hi⟩ := hline
  cases hpost : postprocessAlias ('\n' :: joinSpace (args'.drop i)) with
  | error p =>
    have e : srapRun args env fs =
        ⟨.error p, fs, if config.dryrun = true then [Event.dryRunNotice] else []⟩ := by
      unfold srapRun
      rw [if_neg hhelp]
      simp only [hparse, hi, hpost]
    rw [e]
    exact ⟨⟨p, rfl⟩, rfl, fun q => by cases hd : config.dryrun <;> simp [hd]⟩
  | ok l =>
    have e : srapRun args env fs =
        ⟨.error .shellUnset, fs, if config.dryrun = true then [Event.dryRunNotice] else []⟩ := by
      unfold srapRun
      rw [if_neg hhelp]
      simp only [hparse, hi, hpost, hall, Bool.false_eq_true, if_false,
        runSingleMode_shell_none config l env fs hshell]
    rw [e]
    exact ⟨⟨.shellUnset, rfl⟩, rfl, fun q => by cases hd : config.dryrun <;> simp [hd]⟩

/-- C7 witness: `srap echo` with `SHELL` unset aborts without writing. -/
theorem no_shell_aborts_witness :
    (∃ p, (srapRun ["echo".data] env0 fs0).result = .error p)
    ∧ (srapRun ["echo".data] env0 fs0).fs = fs0
    ∧ ∀ q, Event.wroteF q ∉ (srapRun ["echo".data] env0 fs0).events :=
  no_shell_aborts ["echo".data] ["echo".data] env0 fs0 ⟨false, false, [], false, false⟩
    rfl (by decide) (by decide) rfl rfl ⟨0, by decide⟩

/-- C10: in single-target mode `SHELL` is read before the target path is
chosen, so even with an explicit `--file` path (non-empty `config.file`),
an unset `SHELL` makes the run abort with the `SHELL` panic, the filesystem
unchanged, and no file is read or written. -/
theorem shell_read_before_explicit_file (args args' : List Str) (env : Env) (fs : Fs)
    (config : SrapConfig) (i : Nat) (lta : Str)
    (hshell : env.shell = none)
    (hhelp : ¬(args = [] ∨ "-h".data ∈ args ∨ "--help".data ∈ args))
    (hparse : parse_args args = .ok (config, args'))
    (hall : config.all = false)
    (hfile : config.file ≠ [])
    (hline : position (fun a => !(startsDash a)) args' = some i)
    (hpost : postprocessAlias ('\n' :: joinSpace (args'.drop i)) = .ok lta) :
    (srapRun args env fs).result = .error .shellUnset
    ∧ (srapRun args env fs).fs = fs
    ∧ ∀ q, Event.readF q ∉ (srapRun args env fs).events
         ∧ Event.wroteF q ∉ (srapRun args env fs).events := by
  have e : srapRun args env fs =
      ⟨.error .shellUnset, fs, if config.dryrun = true then [Event.dryRunNotice] else []⟩ := by
    unfold srapRun
    rw [if_neg hhelp]
    simp only [hparse, hline, hpost, hall, Bool.false_eq_true, if_false,
      runSingleMode_shell_none config lta env fs hshell]
  rw [e]
  exact ⟨rfl, rfl, fun q => by cases hd : config.dryrun <;> simp [hd]⟩

/-- C10 witness: `srap -f myrc echo` with `SHELL` unset aborts with the
`SHELL` panic before touching any file. -/
theorem shell_read_before_explicit_file_witness :
    (srapRun ["-f".data, "myrc".data, "echo".data] env0 fs0).result = .error .shellUnset
    ∧ (srapRun ["-f".data, "myrc".data, "echo".data] env0 fs0).fs = fs0
    ∧ ∀ q, Event.readF q ∉ (srapRun ["-f".data, "myrc".data, "echo".data] env0 fs0).events
         ∧ Event.wroteF q ∉ (srapRun ["-f".data, "myrc".data, "echo".data] env0 fs0).events :=
  shell_read_before_explicit_file ["-f".data, "myrc".data, "echo".data]
    ["-f".data, "echo".data] env0 fs0 ⟨false, false, "myrc".data, false, false⟩ 1
    "\necho".data rfl (by decide) (by decide) rfl (by decide) (by decide) (by decide)

/-- C1: the single-target append engine, run non-dry on an existing target
file, replaces its content with the previous content followed by a newline
and the assembled append line, leaving every other file unchanged; in
dry-run mode the engine leaves the filesystem as-is, and more generally any
whole run invoked with `-d` leaves every file byte-for-byte unchanged. -/
theorem append_engine_appends (fs : Fs) (cfp existing line : Str)
    (h : fs cfp = some existing) :
    appendEngineSingle false ('\n' :: line) cfp fs =
      .ok (fsUpdate fs cfp (existing ++ '\n' :: line),
           [Event.readF cfp, Event.appending cfp, Event.wroteF cfp])
    ∧ fsUpdate fs cfp (existing ++ '\n' :: line) cfp = some (existing ++ '\n' :: line)
    ∧ (∀ q, q ≠ cfp → fsUpdate fs cfp (existing ++ '\n' :: line) q = fs q)
    ∧ appendEngineSingle true ('\n' :: line) cfp fs =
        .ok (fs, [Event.readF cfp, Event.appending cfp])
    ∧ ∀ args env fs0, "-d".data ∈ args → (srapRun args env fs0).fs = fs0 := by
  refine ⟨?_, fsUpdate_same fs cfp _, fun q hq => fsUpdate_ne fs cfp _ q hq, ?_,
    fun args env fs0 hd => srapRun_dryrun_fs args env fs0 hd⟩
  · unfold appendEngineSingle
    rw [h]
    rfl
  · unfold appendEngineSingle
    rw [h]
    rfl

/-- C1 witness: appending `export Y=2` to a file holding `export X=1`
yields exactly `export X=1\nexport Y=2`. -/
theorem append_engine_appends_witness :
    fsUpdate fsExport "/h/.bashrc".data ("export X=1".data ++ '\n' :: "export Y=2".data)
        "/h/.bashrc".data = some "export X=1\nexport Y=2".data := by
  have h := (append_engine_appends fsExport "/h/.bashrc".data "export X=1".data
      "export Y=2".data (by decide)).2.1
  rw [h]
  decide

/-- C5: in apply-to-all mode (run here as `srap -a export X=1`) with
`~/.bashrc` existing but `~/.zshrc`, `~/.nshrc`, `~/.kshrc` missing, the
run terminates normally, exactly `~/.bashrc` is modified (every other path
keeps its content), the candidates are visited in the fixed order bash,
zsh, nsh, ksh, and exactly three "not found" notices are printed, one per
missing candidate. -/
theorem apply_all_skips_missing (env : Env) (fs : Fs) (home bashC : Str)
    (hhome : env.home = some home)
    (hb : fs (home ++ "/.bashrc".data) = some bashC)
    (hz : fs (home ++ "/.zshrc".data) = none)
    (hn : fs (home ++ "/.nshrc".data) = none)
    (hk : fs (home ++ "/.kshrc".data) = none) :
    srapRun ["-a".data, "export".data, "X=1".data] env fs =
      ⟨.ok (), fsUpdate fs (home ++ "/.bashrc".data) (bashC ++ "\nexport X=1".data),
       [Event.readF (home ++ "/.bashrc".data), Event.appending (home ++ "/.bashrc".data),
        Event.wroteF (home ++ "/.bashrc".data),
        Event.notFound (home ++ "/.zshrc".data), Event.notFound (home ++ "/.nshrc".data),
        Event.notFound (home ++ "/.kshrc".data), Event.success]⟩
    ∧ fsUpdate fs (home ++ "/.bashrc".data) (bashC ++ "\nexport X=1".data)
        (home ++ "/.bashrc".data) = some (bashC ++ "\nexport X=1".data)
    ∧ ∀ q, q ≠ home ++ "/.bashrc".data →
        fsUpdate fs (home ++ "/.bashrc".data) (bashC ++ "\nexport X=1".data) q = fs q := by
  refine ⟨?_, fsUpdate_same fs _ _, fun q hq => fsUpdate_ne fs _ _ q hq⟩
  have hrb : replaceTilde "~/.bashrc".data home = home ++ "/.bashrc".data :=
    replaceTilde_tilde home "/.bashrc".data (by decide)
  have hrz : replaceTilde "~/.zshrc".data home = home ++ "/.zshrc".data :=
    replaceTilde_tilde home "/.zshrc".data (by decide)
  have hrn : replaceTilde "~/.nshrc".data home = home ++ "/.nshrc".data :=
    replaceTilde_tilde home "/.nshrc".data (by decide)
  have hrk : replaceTilde "~/.kshrc".data home = home ++ "/.kshrc".data :=
    replaceTilde_tilde home "/.kshrc".data (by decide)
  have hz' : fsUpdate fs (home ++ "/.bashrc".data) (bashC ++ "\nexport X=1".data)
      (home ++ "/.zshrc".data) = none := by
    rw [fsUpdate_ne _ _ _ _ (append_ne_of_ne home (by decide))]
    exact hz
  have hn' : fsUpdate fs (home ++ "/.bashrc".data) (bashC ++ "\nexport X=1".data)
      (home ++ "/.nshrc".data) = none := by
    rw [fsUpdate_ne _ _ _ _ (append_ne_of_ne home (by decide))]
    exact hn
  have hk' : fsUpdate fs (home ++ "/.bashrc".data) (bashC ++ "\nexport X=1".data)
      (home ++ "/.kshrc".data) = none := by
    rw [fsUpdate_ne _ _ _ _ (append_ne_of_ne home (by decide))]
    exact hk
  have hmode : runAllMode ⟨true, false, [], false, false⟩ "\nexport X=1".data env fs =
      runAll false "\nexport X=1".data home
        ["~/.bashrc".data, "~/.zshrc".data, "~/.nshrc".data, "~/.kshrc".data] fs := by
    unfold runAllMode
    rw [hhome]
    rfl
  have hrun : runAll false "\nexport X=1".data home
      ["~/.bashrc".data, "~/.zshrc".data, "~/.nshrc".data, "~/.kshrc".data] fs =
      (fsUpdate fs (home ++ "/.bashrc".data) (bashC ++ "\nexport X=1".data),
       [Event.readF (home ++ "/.bashrc".data), Event.appending (home ++ "/.bashrc".data),
        Event.wroteF (home ++ "/.bashrc".data),
        Event.notFound (home ++ "/.zshrc".data), Event.notFound (home ++ "/.nshrc".data),
        Event.notFound (home ++ "/.kshrc".data)]) := by
    rw [runAll_cons_some_false "\nexport X=1".data home "~/.bashrc".data
          ["~/.zshrc".data, "~/.nshrc".data, "~/.kshrc".data] fs bashC
          (by rw [hrb]; exact hb), hrb]
    rw [runAll_cons_none false "\nexport X=1".data home "~/.zshrc".data
          ["~/.nshrc".data, "~/.kshrc".data]
          (fsUpdate fs (home ++ "/.bashrc".data) (bashC ++ "\nexport X=1".data))
          (by rw [hrz]; exact hz'), hrz]
    rw [runAll_cons_none false "\nexport X=1".data home "~/.nshrc".data ["~/.kshrc".data]
          (fsUpdate fs (home ++ "/.bashrc".data) (bashC ++ "\nexport X=1".data))
          (by rw [hrn]; exact hn'), hrn]
    rw [runAll_cons_none false "\nexport X=1".data home "~/.kshrc".data []
          (fsUpdate fs (home ++ "/.bashrc".data) (bashC ++ "\nexport X=1".data))
          (by rw [hrk]; exact hk'), hrk]
    rfl
  have e1 : srapRun ["-a".data, "export".data, "X=1".data] env fs =
      ⟨.ok (), (runAllMode ⟨true, false, [], false, false⟩ "\nexport X=1".data env fs).1,
       (runAllMode ⟨true, false, [], false, false⟩ "\nexport X=1".data env fs).2 ++
         [Event.success]⟩ := rfl
  rw [e1, hmode, hrun]
  rfl

/-- C5 witness: the scenario at the concrete home `/h` with `/h/.bashrc`
holding `x`: the updated filesystem maps `/h/.bashrc` to `x` plus the
appended line. -/
theorem apply_all_skips_missing_witness :
    fsUpdate fsBashOnly ("/h".data ++ "/.bashrc".data) ("x".data ++ "\nexport X=1".data)
        ("/h".data ++ "/.bashrc".data) = some ("x".data ++ "\nexport X=1".data) :=
  (apply_all_skips_missing envHome fsBashOnly "/h".data "x".data rfl (by decide)
      (by decide) (by decide) (by decide)).2.1

end Srap
